import Mathlib

/-!
Shallow embedding of the CAN endpoint in src/bsw/src/communication/CanSocket.h
(class CanSocket): the constructor's initialization pipeline, the interface
resolver check_interface, and the frame encoder send, together with models of
the two receive variants.  Byte buffers are lists of Nat (each entry one byte),
machine integers are Nat/Int with explicit truncation where the code truncates,
and every out-of-bounds array access of the C++ code is made visible by a total
embedding returning Option.
-/

namespace CanModel

/-- CAN_STD::DATA_LEN: a classic CAN frame carries at most 8 data bytes
(CanSocket.h:70). -/
def CAN_STD_DATA_LEN : Nat := 8

/-- CAN_FD::DATA_LEN: a CAN FD frame carries at most 64 data bytes
(CanSocket.h:76). -/
def CAN_FD_DATA_LEN : Nat := 64

/-- A wire frame shape as selected by the SelectedFrame typedef in
CanSocket::send (CanSocket.h:176-178): dataLen is the size of the data field
of the chosen C struct and mtu its sizeof, i.e. the envelope handed to the
POSIX write. -/
structure FrameShape where
  dataLen : Nat
  mtu : Nat
deriving DecidableEq

/-- struct can_frame of linux/can.h: 8 data bytes, sizeof = CAN_MTU = 16. -/
def classicShape : FrameShape := ⟨8, 16⟩

/-- struct canfd_frame of linux/can.h: 64 data bytes, sizeof = CANFD_MTU = 72. -/
def fdShape : FrameShape := ⟨64, 72⟩

/-- The mutable endpoint state relevant to send: m_can_init (CanSocket.h:331)
and m_last_error (inherited from the Socket base). -/
structure CanState where
  can_init : Bool
  last_error : Int
deriving DecidableEq

/-- CanSocket::is_can_initialized, reads m_can_init. -/
def is_can_initialized (st : CanState) : Bool := st.can_init

/-- The outcome of the one POSIX write call of send: the value the OS returns
and the value of errno right after it. -/
structure OsWrite where
  ret : Int
  errno : Int
deriving DecidableEq

/-- static_cast to AR::sint8 (CanSocket.h:209): two's-complement truncation of
an integer to 8 bits. -/
def toInt8 (x : Int) : Int := (x + 128) % 256 - 128

/-- memset(&frame, 0, n) on a byte buffer (CanSocket.h:188): the first n bytes
become zero, the rest keep their previous (possibly indeterminate) value. -/
def memsetZero (buf : List Nat) (n : Nat) : List Nat :=
  List.replicate n 0 ++ buf.drop n

/-- frame.can_id = can_id (CanSocket.h:190): the 32-bit canid_t occupies bytes
0..3 of the frame struct, little endian. -/
def idBytes (id : Nat) : List Nat :=
  [id % 256, id / 256 % 256, id / 65536 % 256, id / 16777216 % 256]

/-- Store the identifier into bytes 0..3 of the frame buffer. -/
def storeId (buf : List Nat) (id : Nat) : List Nat :=
  idBytes id ++ buf.drop 4

/-- The copy loop of CanSocket::send (CanSocket.h:198-203): for i in [0, len)
do frame.data[i] = data[i].  frame.data is the 64-byte data field at byte
offsets 8..71 of the local struct canfd_frame; indexing is total here, so an
out-of-bounds access on either array (C++ undefined behavior) yields none.
copyLoop data buf n runs the first n iterations. -/
def copyLoop (dat : List Nat) (buf : List Nat) : Nat → Option (List Nat)
  | 0 => some buf
  | n + 1 =>
    match copyLoop dat buf n with
    | none => none
    | some b =>
      match dat[n]? with
      | none => none
      | some v => if 8 + n < 72 then some (b.set (8 + n) v) else none

/-- The frame buffer built by send before the write (CanSocket.h:186-203):
a stack struct canfd_frame whose indeterminate initial bytes are junk, then
memset over sizeof(SelectedFrame) bytes, the identifier, the clamped length
field at byte offset 4, and the payload copy loop. -/
def builtFrame (shape : FrameShape) (junk : List Nat) (can_id : Nat)
    (dat : List Nat) (len : Nat) : Option (List Nat) :=
  copyLoop dat ((storeId (memsetZero junk shape.mtu) can_id).set 4
    (min len dat.length)) len

/-- What a call to send produced: the AR::sint8 return value, the endpoint
state after the call, and, when the POSIX write was invoked, the frame buffer
handed to it together with the byte count requested (none when the call was
rejected before reaching the OS). -/
structure SendOutcome where
  ret : Int
  state : CanState
  wrote : Option (List Nat × Nat)
deriving DecidableEq

/-- CanSocket::send (CanSocket.h:160-231).  shape is the SelectedFrame chosen
at compile time from the payload container type, junk the indeterminate bytes
of the stack frame struct, dat the caller's payload array, len the requested
length, os the behavior of the one POSIX write.  Returns none exactly when the
copy loop commits undefined behavior (out-of-bounds indexing). -/
def send (shape : FrameShape) (st : CanState) (junk : List Nat) (can_id : Nat)
    (dat : List Nat) (len : Nat) (os : OsWrite) : Option SendOutcome :=
  if is_can_initialized st = true ∧ 0 < len then
    match builtFrame shape junk can_id dat len with
    | none => none
    | some buf3 =>
      if toInt8 os.ret ≤ 0 then
        some ⟨-1, { st with last_error := os.errno }, some (buf3, shape.mtu)⟩
      else
        some ⟨toInt8 os.ret, st, some (buf3, shape.mtu)⟩
  else
    some ⟨-1, st, none⟩

/-- Extract byte i of the frame buffer a send call handed to the POSIX write,
when the call was defined and reached the write. -/
def sentFrameByte (r : Option SendOutcome) (i : Nat) : Option Nat :=
  match r with
  | some o =>
    match o.wrote with
    | some (b, _) => b[i]?
    | none => none
  | none => none

/-- IFNAMSIZ of net/if.h on Linux: the interface name buffer holds 16 bytes. -/
def IFNAMSIZ : Nat := 16

/-- The struct ifreq member m_ifr (CanSocket.h:323): the name buffer of
IFNAMSIZ bytes and the resolved interface index. -/
structure Ifr where
  name : List Nat
  ifindex : Nat
deriving DecidableEq

/-- The C string stored in a byte buffer: the bytes before the first null. -/
def cstr (l : List Nat) : List Nat := l.takeWhile (fun b => decide (b ≠ 0))

/-- strncpy(dst, src, n) writes exactly n bytes into dst: the source
characters (src is the list of non-null characters of the source string)
truncated to n, null-padded when the source is shorter. -/
def strncpyBytes (src : List Nat) (n : Nat) : List Nat :=
  src.take n ++ List.replicate (n - src.length) 0

/-- CanSocket::check_interface (CanSocket.h:282-311): strncpy of the name into
m_ifr.ifr_name over IFNAMSIZ-1 bytes, forced null terminator at index
IFNAMSIZ-1, kernel lookup via if_nametoindex (modelled by lookup, 0 meaning
unknown), and the exists flag set from a nonzero index.  Returns the flag and
the updated m_ifr. -/
def check_interface (ifr : Ifr) (src : List Nat) (lookup : List Nat → Nat) :
    Bool × Ifr :=
  let nm0 := strncpyBytes src (IFNAMSIZ - 1) ++ ifr.name.drop (IFNAMSIZ - 1)
  let nm := nm0.set (IFNAMSIZ - 1) 0
  let idx := lookup (cstr nm)
  (decide (idx ≠ 0), ⟨nm, idx⟩)

/-- A concrete kernel name-to-index table used as a lookup oracle by the
resolver witness: it knows one interface name, fifteen letters a, index 5. -/
def demoLookup : List Nat → Nat :=
  fun l => if l = List.replicate 15 97 then 5 else 0

/-- Which initialization steps the constructor attempted and the resulting
m_can_init flag. -/
structure CtorTrace where
  checked_interface : Bool
  attempted_bind : Bool
  attempted_enable : Bool
  m_can_init : Bool
  ifr : Ifr
deriving DecidableEq

/-- CanSocket::CanSocket (CanSocket.h:97-144).  sock_created is the result of
is_socket_initialized after the base Socket constructor ran, bind_success and
canfd_success the results of bind_if_socket and enable_canfd (their bodies
live outside this header); interface resolution goes through check_interface
above.  The function is total: construction cannot throw. -/
def canSocketCtor (sock_created : Bool) (ifr0 : Ifr) (interface_str : List Nat)
    (lookup : List Nat → Nat) (bind_success canfd_success : Bool) : CtorTrace :=
  if sock_created then
    let r := check_interface ifr0 interface_str lookup
    if r.1 then
      if bind_success then
        ⟨true, true, true, canfd_success, r.2⟩
      else
        ⟨true, true, false, false, r.2⟩
    else
      ⟨true, false, false, false, r.2⟩
  else
    ⟨false, false, false, false, ifr0⟩

/-- The blocking receive variant at CanSocket.h:241 decodes into a CanFDData
buffer, a std::array of 64 bytes (CanSocket.h:82). -/
def receiveBlockingPayloadCapacity : Nat := CAN_FD_DATA_LEN

/-- The time-bounded receive variant at CanSocket.h:253-254 decodes into a
CanDataType buffer, a std::array of 8 bytes (CanSocket.h:80-81). -/
def receiveTimedPayloadCapacity : Nat := CAN_STD_DATA_LEN

/-- What the OS delivered to one call of the time-bounded receive: nothing
before the deadline, an error, or one frame. -/
inductive TimedRxEvent where
  | timeout
  | osError (e : Int)
  | frame (id : Nat) (len : Nat) (bytes : List Nat)
deriving DecidableEq

/-- Modelled from the spec: the body of the time-bounded
CanSocket::receive(CanIDType, CanDataType, AR::uint16) is not in the
repository, only its declaration at CanSocket.h:253-254; per the spec it has
three distinguishable outcomes: a positive byte count with the decoded
identifier and payload when a frame arrived in time (modelled as the classic
envelope size 16 read from the socket), exactly 0 when the timeout elapsed
with no data, and -1 with Last Error updated on an OS-level error.  id0 and
buf0 are the caller's out-parameters before the call; the payload buffer has
the classic capacity of 8 bytes fixed by the declaration's CanDataType. -/
def receive_timed (st : CanState) (id0 : Nat) (buf0 : List Nat)
    (ev : TimedRxEvent) : Int × CanState × Nat × List Nat :=
  match ev with
  | TimedRxEvent.timeout => (0, st, id0, buf0)
  | TimedRxEvent.osError e => (-1, { st with last_error := e }, id0, buf0)
  | TimedRxEvent.frame fid _ bytes =>
      (16, st, fid,
        (List.range receiveTimedPayloadCapacity).map (fun i => bytes.getD i 0))

/-- Setting the last element of a list of length n+1 keeps the first n
elements and replaces the final one. -/
theorem set_eq_take_append (v : Nat) : ∀ (n : Nat) (l : List Nat),
    l.length = n + 1 → l.set n v = l.take n ++ [v] := by
  intro n
  induction n with
  | zero =>
    intro l h
    cases l with
    | nil => cases h
    | cons a t =>
      have ht : t = [] := List.length_eq_zero.mp (by simpa using h)
      subst ht
      rfl
  | succ m ih =>
    intro l h
    cases l with
    | nil => cases h
    | cons a t =>
      simp only [List.set_cons_succ, List.take_succ_cons, List.cons_append]
      rw [ih t (by simpa using h)]

/-- The truncating cast is the identity on values that fit in a signed byte. -/
theorem toInt8_eq_self (x : Int) (h1 : -128 ≤ x) (h2 : x ≤ 127) : toInt8 x = x := by
  unfold toInt8
  have : (x + 128) % 256 = x + 128 := Int.emod_eq_of_lt (by omega) (by omega)
  omega

/-- The copy loop only writes the byte offsets 8..8+len-1 of the frame buffer:
every other offset keeps its previous value. -/
theorem copyLoop_getElem_outside (dat : List Nat) (i : Nat) (len : Nat) :
    ∀ buf buf1 : List Nat, copyLoop dat buf len = some buf1 →
      (i < 8 ∨ 8 + len ≤ i) → buf1[i]? = buf[i]? := by
  induction len with
  | zero =>
    intro buf buf1 h _
    simp only [copyLoop, Option.some_inj] at h
    rw [h]
  | succ n ih =>
    intro buf buf1 h hi
    unfold copyLoop at h
    cases hc : copyLoop dat buf n with
    | none => rw [hc] at h; cases h
    | some b =>
      rw [hc] at h
      cases hd : dat[n]? with
      | none => rw [hd] at h; cases h
      | some v =>
        rw [hd] at h
        dsimp only at h
        by_cases hlt : 8 + n < 72
        · rw [if_pos hlt] at h
          have hb : b.set (8 + n) v = buf1 := Option.some_inj.mp h
          rw [← hb, List.getElem?_set_ne (by omega)]
          exact ih buf b hc (by omega)
        · rw [if_neg hlt] at h
          cases h

/-- Every byte of the built frame buffer below sizeof(SelectedFrame) that is
neither an identifier byte (offsets 0..3), the length field (offset 4), nor a
byte written by the copy loop (offsets 8..8+len-1) is zero. -/
theorem builtFrame_zero_outside (shape : FrameShape) (junk : List Nat)
    (can_id : Nat) (dat : List Nat) (len : Nat) (b : List Nat) (i : Nat)
    (hb : builtFrame shape junk can_id dat len = some b)
    (h5 : 5 ≤ i) (hmtu : i < shape.mtu) (hout : i < 8 ∨ 8 + len ≤ i) :
    b[i]? = some 0 := by
  unfold builtFrame at hb
  rw [copyLoop_getElem_outside dat i len _ b hb hout,
    List.getElem?_set_ne (by omega)]
  unfold storeId idBytes
  rw [List.getElem?_append_right (by simp; omega), List.getElem?_drop]
  have h4 : 4 + (i - [can_id % 256, can_id / 256 % 256, can_id / 65536 % 256,
      can_id / 16777216 % 256].length) = i := by simp; omega
  rw [h4]
  unfold memsetZero
  rw [List.getElem?_append_left (by simp; omega)]
  simp [List.getElem?_replicate, hmtu]

/-- Inversion principle for send: a defined call either was rejected by the
guard before reaching the OS, or built a frame and handed it to write with
the envelope size of the selected shape, branching on the sign of the
truncated write result. -/
theorem send_inv (shape : FrameShape) (st : CanState) (junk : List Nat)
    (can_id : Nat) (dat : List Nat) (len : Nat) (os : OsWrite) (o : SendOutcome)
    (ho : send shape st junk can_id dat len os = some o) :
    (o = ⟨-1, st, none⟩ ∧ ¬(is_can_initialized st = true ∧ 0 < len)) ∨
    (∃ b, builtFrame shape junk can_id dat len = some b ∧
      (is_can_initialized st = true ∧ 0 < len) ∧
      ((toInt8 os.ret ≤ 0 ∧
        o = ⟨-1, { st with last_error := os.errno }, some (b, shape.mtu)⟩) ∨
       (0 < toInt8 os.ret ∧ o = ⟨toInt8 os.ret, st, some (b, shape.mtu)⟩))) := by
  unfold send at ho
  split at ho
  case isTrue hg =>
    cases hb : builtFrame shape junk can_id dat len with
    | none => rw [hb] at ho; cases ho
    | some b =>
      rw [hb] at ho
      dsimp only at ho
      right
      refine ⟨b, rfl, hg, ?_⟩
      by_cases hds : toInt8 os.ret ≤ 0
      · rw [if_pos hds] at ho
        exact Or.inl ⟨hds, (Option.some_inj.mp ho).symm⟩
      · rw [if_neg hds] at ho
        exact Or.inr ⟨by omega, (Option.some_inj.mp ho).symm⟩
  case isFalse hg => exact Or.inl ⟨(Option.some_inj.mp ho).symm, hg⟩

/-- C1: the claim says a send with requested length above the container
capacity copies exactly the capacity bytes and nothing beyond.  The code is
wrong: the copy loop at CanSocket.h:198-203 iterates i from 0 to len-1 instead
of stopping at the clamped frame.len, so at the concrete input below (classic
8-byte container, len = 9, initialized endpoint) iteration i = 8 reads data[8]
one past the end of the caller's std::array, which is undefined behavior; the
total embedding returns none for exactly that out-of-bounds access. -/
theorem c1_send_oob_read_at_len9 :
    send classicShape ⟨true, 0⟩ (List.replicate 72 0) 291
      [1, 2, 3, 4, 5, 6, 7, 8] 9 ⟨16, 0⟩ = none := by decide

/-- C2 counterexample: the claim as stated says the outgoing frame buffer is
zero-filled over the full extent of the maximum supported frame shape (the
72-byte struct canfd_frame).  It is not: memset at CanSocket.h:188 clears only
sizeof(SelectedFrame) bytes, 16 for a classic send, so at the concrete classic
send below (stack junk bytes all 5) byte 20 of the frame buffer - inside the
72-byte maximum extent and outside every written field - still holds 5, not 0,
when the buffer is handed to write. -/
theorem c2_counterexample_stale_byte :
    sentFrameByte (send classicShape ⟨true, 0⟩ (List.replicate 72 5) 1
      [1, 2, 3, 4, 5, 6, 7, 8] 8 ⟨16, 0⟩) 20 ≠ some 0 := by decide

/-- C2 (amended): the zero-fill covers exactly sizeof(SelectedFrame) bytes,
the extent of the selected frame shape, which is also exactly the byte count
handed to the OS write; hence every transmitted byte outside the identifier
(offsets 0..3), the length field (offset 4) and the meaningful payload region
(offsets 8..8+len-1) is zero.  Stated for every send call that reaches the OS
transport, over arbitrary stack junk. -/
theorem c2_transmitted_tail_zero (shape : FrameShape) (st : CanState)
    (junk : List Nat) (can_id : Nat) (dat : List Nat) (len : Nat)
    (os : OsWrite) (o : SendOutcome) (buf : List Nat) (cnt : Nat) (i : Nat)
    (ho : send shape st junk can_id dat len os = some o)
    (hw : o.wrote = some (buf, cnt))
    (h5 : 5 ≤ i) (hcnt : i < cnt) (hout : i < 8 ∨ 8 + len ≤ i) :
    buf[i]? = some 0 := by
  rcases send_inv shape st junk can_id dat len os o ho with ⟨hrej, -⟩ | ⟨b, hb, -, hc⟩
  · rw [hrej] at hw; cases hw
  · have hw2 : (b, shape.mtu) = (buf, cnt) := by
      rcases hc with ⟨-, hoeq⟩ | ⟨-, hoeq⟩ <;> rw [hoeq] at hw <;>
        exact Option.some_inj.mp hw
    have h1 : b = buf := (Prod.ext_iff.mp hw2).1
    have h2 : shape.mtu = cnt := (Prod.ext_iff.mp hw2).2
    subst h1
    subst h2
    exact builtFrame_zero_outside shape junk can_id dat len b i hb h5 hcnt hout

/-- Witness for C2 (amended): the concrete classic send with junk bytes 5,
identifier 1, payload 1..8 and len 3 reaches the write; byte 12 of the
transmitted envelope (inside the 16 transmitted bytes, past the 3 meaningful
payload bytes) is zero. -/
theorem c2_transmitted_tail_zero_witness :
    ([1, 0, 0, 0, 3, 0, 0, 0, 1, 2, 3, 0, 0, 0, 0, 0] ++
      List.replicate 56 5)[12]? = some 0 :=
  c2_transmitted_tail_zero classicShape ⟨true, 0⟩ (List.replicate 72 5) 1
    [1, 2, 3, 4, 5, 6, 7, 8] 3 ⟨16, 0⟩
    ⟨16, ⟨true, 0⟩, some ([1, 0, 0, 0, 3, 0, 0, 0, 1, 2, 3, 0, 0, 0, 0, 0] ++
      List.replicate 56 5, 16)⟩
    ([1, 0, 0, 0, 3, 0, 0, 0, 1, 2, 3, 0, 0, 0, 0, 0] ++ List.replicate 56 5)
    16 12 (by decide) rfl (by decide) (by decide) (Or.inr (by decide))

/-- C3: a send call issued while the endpoint is not initialized, or with
requested length 0 in any state, returns the sentinel -1, does not invoke the
OS write, and leaves the whole endpoint state unchanged
(CanSocket.h:182, 224-228). -/
theorem c3_send_rejected_without_os (shape : FrameShape) (st : CanState)
    (junk : List Nat) (can_id : Nat) (dat : List Nat) (len : Nat)
    (os : OsWrite) (h : is_can_initialized st = false ∨ len = 0) :
    send shape st junk can_id dat len os = some ⟨-1, st, none⟩ := by
  have hg : ¬(is_can_initialized st = true ∧ 0 < len) := by
    rcases h with h | h
    · rw [h]; simp
    · simp [h]
  unfold send
  rw [if_neg hg]

/-- Witness for C3: a concrete uninitialized endpoint rejects a send of
length 3 with -1, untouched state and no write call. -/
theorem c3_send_rejected_without_os_witness :
    send classicShape ⟨false, 7⟩ (List.replicate 72 0) 5
      (List.replicate 8 0) 3 ⟨16, 0⟩ = some ⟨-1, ⟨false, 7⟩, none⟩ :=
  c3_send_rejected_without_os classicShape ⟨false, 7⟩ (List.replicate 72 0) 5
    (List.replicate 8 0) 3 ⟨16, 0⟩ (Or.inl rfl)

/-- C4: when the OS write reports a result at most 0, send returns exactly -1
and overwrites Last Error with the current OS error code; when the write
reports a positive count, and likewise when the call is rejected before
reaching the OS, the endpoint state including Last Error is unchanged
(CanSocket.h:208-228).  The write result is constrained to the POSIX range
for this call: -1 on error, otherwise at most the requested envelope size. -/
theorem c4_send_last_error (shape : FrameShape) (st : CanState)
    (junk : List Nat) (can_id : Nat) (dat : List Nat) (len : Nat)
    (os : OsWrite) (o : SendOutcome)
    (hs : shape = classicShape ∨ shape = fdShape)
    (hlo : -1 ≤ os.ret) (hhi : os.ret ≤ shape.mtu)
    (ho : send shape st junk can_id dat len os = some o) :
    (o.wrote.isSome = true → os.ret ≤ 0 →
      o.ret = -1 ∧ o.state.last_error = os.errno) ∧
    (o.wrote.isSome = true → 0 < os.ret → o.state = st) ∧
    (o.wrote = none → o.state = st) := by
  have hmtu : shape.mtu ≤ 72 := by
    rcases hs with rfl | rfl <;> decide
  have hid : toInt8 os.ret = os.ret :=
    toInt8_eq_self os.ret (by omega) (by omega)
  rcases send_inv shape st junk can_id dat len os o ho with
    ⟨hoeq, -⟩ | ⟨b, -, -, ⟨hds, hoeq⟩ | ⟨hds, hoeq⟩⟩
  · rw [hoeq]
    refine ⟨?_, ?_, ?_⟩
    · intro hw; simp at hw
    · intro hw; simp at hw
    · intro _; rfl
  · rw [hoeq]
    rw [hid] at hds
    refine ⟨?_, ?_, ?_⟩
    · intro _ _; exact ⟨rfl, rfl⟩
    · intro _ hpos; exact absurd hpos (by omega)
    · intro hw; simp at hw
  · rw [hoeq]
    rw [hid] at hds
    refine ⟨?_, ?_, ?_⟩
    · intro _ hneg; exact absurd hds (by omega)
    · intro _ _; rfl
    · intro hw; simp at hw

/-- Witness for C4: a concrete initialized classic send whose write fails
with result -1 and errno 22 returns -1 and records 22 as Last Error. -/
theorem c4_send_last_error_witness :
    (⟨-1, ⟨true, 22⟩, some ([5, 0, 0, 0, 2, 0, 0, 0, 1, 2] ++
      List.replicate 62 0, 16)⟩ : SendOutcome).ret = -1 ∧
    (⟨-1, ⟨true, 22⟩, some ([5, 0, 0, 0, 2, 0, 0, 0, 1, 2] ++
      List.replicate 62 0, 16)⟩ : SendOutcome).state.last_error = 22 :=
  (c4_send_last_error classicShape ⟨true, 0⟩ (List.replicate 72 0) 5
    [1, 2, 3, 4, 5, 6, 7, 8] 2 ⟨-1, 22⟩
    ⟨-1, ⟨true, 22⟩, some ([5, 0, 0, 0, 2, 0, 0, 0, 1, 2] ++
      List.replicate 62 0, 16)⟩
    (Or.inl rfl) (by decide) (by decide) (by decide)).1 rfl (by decide)

/-- C5: every send call that reaches the OS transport passes the fixed
envelope size of the selected frame shape as the byte count of the write - 16
for the classic container, 72 for the flexible container - independent of the
requested length, and on a successful write returns exactly the count the OS
reported written (CanSocket.h:176-178, 205-209). -/
theorem c5_send_envelope_size (shape : FrameShape) (st : CanState)
    (junk : List Nat) (can_id : Nat) (dat : List Nat) (len : Nat)
    (os : OsWrite) (o : SendOutcome) (buf : List Nat) (cnt : Nat)
    (ho : send shape st junk can_id dat len os = some o)
    (hw : o.wrote = some (buf, cnt)) :
    cnt = shape.mtu ∧
    (shape = classicShape → cnt = 16) ∧
    (shape = fdShape → cnt = 72) ∧
    (0 < os.ret → os.ret ≤ shape.mtu → shape.mtu ≤ 72 → o.ret = os.ret) := by
  rcases send_inv shape st junk can_id dat len os o ho with
    ⟨hoeq, -⟩ | ⟨b, -, -, ⟨hds, hoeq⟩ | ⟨hds, hoeq⟩⟩
  · rw [hoeq] at hw; cases hw
  · rw [hoeq] at hw ⊢
    have hcnt : cnt = shape.mtu :=
      ((Prod.ext_iff.mp (Option.some_inj.mp hw)).2).symm
    refine ⟨hcnt, fun h => by rw [hcnt, h]; decide, fun h => by rw [hcnt, h]; decide,
      fun hpos hle h72 => ?_⟩
    have hid : toInt8 os.ret = os.ret := toInt8_eq_self os.ret (by omega) (by omega)
    rw [hid] at hds
    exact absurd hpos (by omega)
  · rw [hoeq] at hw ⊢
    have hcnt : cnt = shape.mtu :=
      ((Prod.ext_iff.mp (Option.some_inj.mp hw)).2).symm
    refine ⟨hcnt, fun h => by rw [hcnt, h]; decide, fun h => by rw [hcnt, h]; decide,
      fun hpos hle h72 => ?_⟩
    have hid : toInt8 os.ret = os.ret := toInt8_eq_self os.ret (by omega) (by omega)
    rw [hid]

/-- Witness for C5: the concrete successful classic send transfers exactly 16
bytes, the classic envelope size, and returns the 16 the OS reported. -/
theorem c5_send_envelope_size_witness :
    (16 : Nat) = classicShape.mtu ∧
    (⟨16, ⟨true, 0⟩, some ([1, 0, 0, 0, 3, 0, 0, 0, 1, 2, 3, 0, 0, 0, 0, 0] ++
      List.replicate 56 5, 16)⟩ : SendOutcome).ret = (16 : Int) :=
  ⟨(c5_send_envelope_size classicShape ⟨true, 0⟩ (List.replicate 72 5) 1
      [1, 2, 3, 4, 5, 6, 7, 8] 3 ⟨16, 0⟩
      ⟨16, ⟨true, 0⟩, some ([1, 0, 0, 0, 3, 0, 0, 0, 1, 2, 3, 0, 0, 0, 0, 0] ++
        List.replicate 56 5, 16)⟩
      ([1, 0, 0, 0, 3, 0, 0, 0, 1, 2, 3, 0, 0, 0, 0, 0] ++ List.replicate 56 5)
      16 (by decide) rfl).1,
   (c5_send_envelope_size classicShape ⟨true, 0⟩ (List.replicate 72 5) 1
      [1, 2, 3, 4, 5, 6, 7, 8] 3 ⟨16, 0⟩
      ⟨16, ⟨true, 0⟩, some ([1, 0, 0, 0, 3, 0, 0, 0, 1, 2, 3, 0, 0, 0, 0, 0] ++
        List.replicate 56 5, 16)⟩
      ([1, 0, 0, 0, 3, 0, 0, 0, 1, 2, 3, 0, 0, 0, 0, 0] ++ List.replicate 56 5)
      16 (by decide) rfl).2.2.2 (by decide) (by decide) (by decide)⟩

/-- C6: construction runs socket creation, interface resolution, bind and
flexible-mode enable in this fixed order, each step only after every earlier
step succeeded, never throws (the model is a total function), and m_can_init
ends up true exactly when all four steps succeeded; any failure skips all
later steps and leaves the endpoint failed (CanSocket.h:97-144). -/
theorem c6_ctor_pipeline (sock_created : Bool) (ifr0 : Ifr)
    (interface_str : List Nat) (lookup : List Nat → Nat)
    (bind_success canfd_success : Bool) :
    (canSocketCtor sock_created ifr0 interface_str lookup bind_success
      canfd_success).m_can_init
      = (sock_created && (check_interface ifr0 interface_str lookup).1 &&
         bind_success && canfd_success) ∧
    (canSocketCtor sock_created ifr0 interface_str lookup bind_success
      canfd_success).checked_interface = sock_created ∧
    (canSocketCtor sock_created ifr0 interface_str lookup bind_success
      canfd_success).attempted_bind
      = (sock_created && (check_interface ifr0 interface_str lookup).1) ∧
    (canSocketCtor sock_created ifr0 interface_str lookup bind_success
      canfd_success).attempted_enable
      = (sock_created && (check_interface ifr0 interface_str lookup).1 &&
         bind_success) := by
  cases sock_created <;>
    cases hr : (check_interface ifr0 interface_str lookup).1 <;>
      cases bind_success <;> cases canfd_success <;>
        simp [canSocketCtor, hr]

/-- C7: the blocking receive variant at CanSocket.h:241 decodes into a
payload buffer of the flexible capacity 64 (CanFDData), while the
time-bounded variant at CanSocket.h:253-254 decodes into a buffer of the
classic capacity 8 only (CanDataType), so the payload bytes of a flexible
frame beyond index 7 have no slot on the time-bounded path; correspondingly
the modelled time-bounded receive always yields a payload buffer of length 8. -/
theorem c7_receive_buffer_capacities (st : CanState) (id0 : Nat)
    (buf0 : List Nat) (ev : TimedRxEvent)
    (hbuf : buf0.length = receiveTimedPayloadCapacity) :
    receiveBlockingPayloadCapacity = 64 ∧
    receiveTimedPayloadCapacity = 8 ∧
    receiveTimedPayloadCapacity < receiveBlockingPayloadCapacity ∧
    ((receive_timed st id0 buf0 ev).2.2.2).length =
      receiveTimedPayloadCapacity := by
  refine ⟨rfl, rfl, by decide, ?_⟩
  cases ev <;>
    simp [receive_timed, hbuf, receiveTimedPayloadCapacity, CAN_STD_DATA_LEN]

/-- Witness for C7: a concrete timed receive of a 64-byte flexible frame
payload comes back in a buffer of length 8. -/
theorem c7_receive_buffer_capacities_witness :
    receiveBlockingPayloadCapacity = 64 ∧
    receiveTimedPayloadCapacity = 8 ∧
    receiveTimedPayloadCapacity < receiveBlockingPayloadCapacity ∧
    ((receive_timed ⟨true, 0⟩ 0 (List.replicate 8 0)
      (TimedRxEvent.frame 291 64 (List.replicate 64 9))).2.2.2).length =
      receiveTimedPayloadCapacity :=
  c7_receive_buffer_capacities ⟨true, 0⟩ 0 (List.replicate 8 0)
    (TimedRxEvent.frame 291 64 (List.replicate 64 9)) (by decide)

/-- Steps toward C8: the name buffer after check_interface is the strncpy
image of the source truncated to 15 bytes followed by the forced terminator. -/
theorem check_interface_name_eq (ifr : Ifr) (src : List Nat)
    (lookup : List Nat → Nat) (hlen : ifr.name.length = IFNAMSIZ) :
    (check_interface ifr src lookup).2.name = strncpyBytes src 15 ++ [0] := by
  unfold check_interface
  have hI1 : IFNAMSIZ - 1 = 15 := rfl
  simp only [hI1]
  have hsl : (strncpyBytes src 15).length = 15 := by
    simp [strncpyBytes]
    omega
  have hl : (strncpyBytes src 15 ++ ifr.name.drop 15).length = 15 + 1 := by
    rw [List.length_append, hsl, List.length_drop, hlen]
    decide
  rw [set_eq_take_append 0 15 _ hl, List.take_append_eq_append_take, hsl,
    List.take_of_length_le (le_of_eq hsl)]
  simp

/-- The stored C string of a buffer of nonzero characters followed by a null
and anything else is exactly those characters. -/
theorem cstr_append_zero (a : List Nat) (b : List Nat)
    (ha : ∀ x ∈ a, x ≠ 0) : cstr (a ++ 0 :: b) = a := by
  induction a with
  | nil => simp [cstr]
  | cons h t ih =>
    have hh : h ≠ 0 := ha h (by simp)
    simp only [List.cons_append, cstr, List.takeWhile_cons, decide_eq_true_eq]
    rw [if_pos hh]
    have := ih (fun x hx => ha x (by simp [hx]))
    simp only [cstr] at this
    rw [this]

/-- The C string stored by strncpy plus forced terminator is the source
truncated to 15 characters. -/
theorem cstr_strncpy (src : List Nat) (hsrc : ∀ b ∈ src, b ≠ 0) :
    cstr (strncpyBytes src 15 ++ [0]) = src.take 15 := by
  rcases le_or_lt src.length 14 with hle | hlt
  · have h15 : 15 - src.length = (14 - src.length) + 1 := by omega
    unfold strncpyBytes
    rw [List.take_of_length_le (by omega), h15, List.replicate_succ]
    have hsh : (src ++ 0 :: List.replicate (14 - src.length) 0) ++ [0]
        = src ++ 0 :: (List.replicate (14 - src.length) 0 ++ [0]) := by
      simp
    rw [hsh, cstr_append_zero src _ hsrc]
  · unfold strncpyBytes
    have h0 : 15 - src.length = 0 := by omega
    rw [h0]
    simp only [List.replicate, List.append_nil]
    exact cstr_append_zero (src.take 15) []
      (fun x hx => hsrc x (List.take_subset 15 src hx))

/-- C8: the resolver stores at most IFNAMSIZ-1 = 15 characters of the given
interface name (silent truncation of over-long names), always forces a null
terminator at index 15, queries the kernel with exactly the stored string,
reports existence exactly when the kernel index is nonzero, and stores that
index - in particular index 0 together with a false flag when the OS does not
recognize the name (CanSocket.h:282-311). -/
theorem c8_check_interface_resolver (ifr : Ifr) (src : List Nat)
    (lookup : List Nat → Nat) (hlen : ifr.name.length = IFNAMSIZ)
    (hsrc : ∀ b ∈ src, b ≠ 0) :
    cstr (check_interface ifr src lookup).2.name = src.take (IFNAMSIZ - 1) ∧
    ((check_interface ifr src lookup).2.name)[(15 : Nat)]? = some 0 ∧
    ((check_interface ifr src lookup).1 = true ↔
      lookup (src.take (IFNAMSIZ - 1)) ≠ 0) ∧
    (check_interface ifr src lookup).2.ifindex =
      lookup (src.take (IFNAMSIZ - 1)) := by
  have hI1 : IFNAMSIZ - 1 = 15 := rfl
  have hname := check_interface_name_eq ifr src lookup hlen
  have hsl : (strncpyBytes src 15).length = 15 := by
    simp [strncpyBytes]
    omega
  have hcs : cstr (check_interface ifr src lookup).2.name = src.take 15 := by
    rw [hname]
    exact cstr_strncpy src hsrc
  refine ⟨by rw [hI1]; exact hcs, ?_, ?_, ?_⟩
  · rw [hname, List.getElem?_append_right (le_of_eq hsl), hsl]
    simp
  · rw [hI1]
    unfold check_interface
    simp only [decide_eq_true_eq]
    unfold check_interface at hcs
    simp only [] at hcs
    rw [hcs]
  · rw [hI1]
    unfold check_interface
    simp only []
    unfold check_interface at hcs
    simp only [] at hcs
    rw [hcs]

/-- Witness for C8: a 20-character interface name of letters a is truncated
to its first 15 characters, null-terminated, resolved through the lookup and
reported existing with the looked-up index 5. -/
theorem c8_check_interface_resolver_witness :
    cstr (check_interface ⟨List.replicate 16 7, 0⟩ (List.replicate 20 97)
      demoLookup).2.name = (List.replicate 20 97).take (IFNAMSIZ - 1) ∧
    ((check_interface ⟨List.replicate 16 7, 0⟩ (List.replicate 20 97)
      demoLookup).2.name)[(15 : Nat)]? = some 0 := by
  have h := c8_check_interface_resolver ⟨List.replicate 16 7, 0⟩
    (List.replicate 20 97) demoLookup (by decide) (by decide)
  exact ⟨h.1, h.2.1⟩

/-- C9: the time-bounded receive has exactly three distinguishable outcomes:
a positive return with the decoded identifier on a frame, exactly 0 on
timeout with the state untouched, and -1 with Last Error updated on an OS
error; a timeout is never reported through the negative sentinel
(CanSocket.h:243-254, body modelled from the spec). -/
theorem c9_receive_timed_trichotomy (st : CanState) (id0 : Nat)
    (buf0 : List Nat) (ev : TimedRxEvent) :
    (ev = TimedRxEvent.timeout →
      receive_timed st id0 buf0 ev = (0, st, id0, buf0)) ∧
    (∀ e, ev = TimedRxEvent.osError e →
      (receive_timed st id0 buf0 ev).1 = -1 ∧
      (receive_timed st id0 buf0 ev).2.1 = { st with last_error := e }) ∧
    (∀ fid flen fbytes, ev = TimedRxEvent.frame fid flen fbytes →
      0 < (receive_timed st id0 buf0 ev).1 ∧
      (receive_timed st id0 buf0 ev).2.2.1 = fid ∧
      (receive_timed st id0 buf0 ev).2.1 = st) ∧
    ((receive_timed st id0 buf0 ev).1 < 0 →
      ∃ e, ev = TimedRxEvent.osError e) := by
  cases ev <;> simp [receive_timed]

/-- Witness for C9: a concrete timed receive that times out returns exactly 0
and leaves the state and out-parameters untouched. -/
theorem c9_receive_timed_trichotomy_witness :
    receive_timed ⟨true, 3⟩ 7 (List.replicate 8 9) TimedRxEvent.timeout
      = (0, ⟨true, 3⟩, 7, List.replicate 8 9) :=
  (c9_receive_timed_trichotomy ⟨true, 3⟩ 7 (List.replicate 8 9)
    TimedRxEvent.timeout).1 rfl

/-- C10: the claim says every index of the payload copy loop stays in bounds
of the caller's array and of the frame data field for every 8-bit len.  The
code is wrong: at the concrete flexible send below (64-byte container,
len = 65, initialized endpoint) loop iteration i = 64 indexes both the
caller's 64-byte std::array and the 64-byte frame.data field one past the
end, undefined behavior; the total embedding returns none for exactly that
out-of-bounds branch, so the branch is reachable. -/
theorem c10_send_oob_at_len65 :
    send fdShape ⟨true, 0⟩ (List.replicate 72 0) 291
      (List.replicate 64 1) 65 ⟨72, 0⟩ = none := by decide

end CanModel
